import Mathlib

/-!
Verification of the DNS resolver of gvisor-tap-vsock
(`pkg/services/dns/hosts_file.go`): zone matching, upstream forwarding,
truncation, zone-store merge, and the hosts-file reload/watch loop.

Go strings are modelled as Lean `String`, IP addresses (`net.IP`, a byte
slice) as `List Nat`, DNS type/class/rcode constants as the numeric values
of the `miekg/dns` package, and a compiled regular expression as its
`MatchString` function (`none` models a nil `*regexp.Regexp`).
-/

namespace GvDns

/-- `dns.TypeA = 1`. -/
def typeA : Nat := 1

/-- `dns.TypeAAAA = 28`. -/
def typeAAAA : Nat := 28

/-- `dns.TypeTXT = 16`. -/
def typeTXT : Nat := 16

/-- `dns.ClassINET = 1`. -/
def classINET : Nat := 1

/-- `dns.RcodeSuccess = 0`. -/
def rcodeSuccess : Nat := 0

/-- `dns.RcodeNameError = 3`. -/
def rcodeNameError : Nat := 3

/-- `dns.MaxMsgSize = 65535`, the TCP ceiling used by `handleTCP`. -/
def maxMsgSize : Nat := 65535

/-- `dns.MinMsgSize = 512`, the UDP ceiling used by `handleUDP`. -/
def minMsgSize : Nat := 512

/-- An IP address: `net.IP` is a byte slice; `net.IP("")` is `[]`. -/
abbrev IPAddr := List Nat

/-- `types.Record` (pkg/types is not under src; its fields are
reconstructed from their uses in hosts_file.go and the spec data model):
`Name string`, `Regexp *regexp.Regexp` modelled by its `MatchString`
function (`none` = nil), `IP net.IP`. -/
structure Record where
  name : String
  regexpMatch : Option (String → Bool)
  ip : IPAddr

/-- `types.Zone` (pkg/types is not under src; fields reconstructed from
their uses in hosts_file.go and the spec data model): `Name string`,
`Records []Record`, `DefaultIP net.IP`. -/
structure Zone where
  name : String
  records : List Record
  defaultIP : IPAddr

/-- One entry of the question section: `dns.Question{Name, Qtype}`
(the class field is unused by the resolver). -/
structure Question where
  name : String
  qtype : Nat
deriving DecidableEq

/-- An A answer record as built by `addLocalAnswers`:
`dns.A{Hdr: RR_Header{Name, Rrtype, Class, Ttl}, A: ip}`. -/
structure ARecord where
  name : String
  rrtype : Nat
  class_ : Nat
  ttl : Nat
  ip : IPAddr
deriving DecidableEq

/-- The fields of `dns.Msg` the resolver reads or writes: the question
section, the answer section, `Rcode`, the truncation flag, the
`RecursionAvailable` flag, and the advertised EDNS0 UDP payload size
(`none` when `r.IsEdns0() == nil`). Header fields the code never
consults (Id, Opcode, rd/cd bits, ...) are omitted. -/
structure Msg where
  questions : List Question
  answers : List ARecord
  rcode : Nat
  truncated : Bool
  recursionAvailable : Bool
  ednsUdpSize : Option Nat
deriving DecidableEq

/-- `strings.HasSuffix s suf`. -/
def goHasSuffix (s suf : String) : Bool :=
  suf.data.isSuffixOf s.data

/-- `strings.TrimSuffix s suf`: drops `suf` when it is a suffix of `s`,
otherwise returns `s` unchanged. -/
def goTrimSuffix (s suf : String) : String :=
  if goHasSuffix s suf then String.mk (s.data.take (s.data.length - suf.data.length)) else s

/-- The answer record appended by `addLocalAnswers`:
name = query name, Rrtype = A, Class = INET, Ttl = 0. -/
def mkARecord (qName : String) (ip : IPAddr) : ARecord :=
  { name := qName, rrtype := typeA, class_ := classINET, ttl := 0, ip := ip }

/-- `m.Answer = append(m.Answer, &dns.A{...})`. -/
def appendAnswer (m : Msg) (qName : String) (ip : IPAddr) : Msg :=
  { m with answers := m.answers ++ [mkARecord qName ip] }

/-- The per-record match test of the inner loop of `addLocalAnswers`:
`(record.Name != "" && record.Name == withoutZone) ||
 (record.Regexp != nil && record.Regexp.MatchString(withoutZone))`. -/
def recordMatches (withoutZone : String) (rec : Record) : Bool :=
  (rec.name ≠ "" && rec.name == withoutZone) ||
    (match rec.regexpMatch with
     | some f => f withoutZone
     | none => false)

/-- The inner record loop of `addLocalAnswers`: scan the records in order
and on the first match append the A answer; `none` when no record
matches. -/
def scanRecords (m : Msg) (qName withoutZone : String) : List Record → Option Msg
  | [] => none
  | rec :: rest =>
    if recordMatches withoutZone rec then some (appendAnswer m qName rec.ip)
    else scanRecords m qName withoutZone rest

/-- The body of `addLocalAnswers` once a zone's dot-qualified suffix
matched the query name: non-A queries return false (no mutation);
otherwise scan records, fall back to `DefaultIP` when it is non-empty
(`!zone.DefaultIP.Equal(net.IP(""))`), else set `RcodeNameError`. -/
def zoneAnswer (m : Msg) (q : Question) (z : Zone) : Msg × Bool :=
  if q.qtype ≠ typeA then (m, false)
  else
    match scanRecords m q.name (goTrimSuffix q.name ("." ++ z.name)) z.records with
    | some m2 => (m2, true)
    | none =>
      if z.defaultIP ≠ ([] : IPAddr) then (appendAnswer m q.name z.defaultIP, true)
      else ({ m with rcode := rcodeNameError }, true)

/-- `dnsHandler.addLocalAnswers`: walk the zones in order; at the first
zone whose `"." + zone.Name` is a suffix of the query name, every path
returns, so later zones are never consulted. -/
def addLocalAnswers (zones : List Zone) (m : Msg) (q : Question) : Msg × Bool :=
  match zones with
  | [] => (m, false)
  | z :: rest =>
    if goHasSuffix q.name ("." ++ z.name) then zoneAnswer m q z
    else addLocalAnswers rest m q

/-- `m.SetReply(r)` of miekg/dns, restricted to the modelled fields: it
resets the answer section, sets `RcodeSuccess`, and copies only the
FIRST question of the request (`dns.Question = make([]Question, 1);
dns.Question[0] = request.Question[0]` when the request has questions). -/
def setReply (r : Msg) : Msg :=
  { questions := r.questions.take 1
    answers := []
    rcode := rcodeSuccess
    truncated := false
    recursionAvailable := false
    ednsUdpSize := none }

/-- The reply skeleton of `addAnswers`: `m.SetReply(r)` followed by
`m.RecursionAvailable = true`. -/
def initReply (r : Msg) : Msg :=
  { setReply r with recursionAvailable := true }

/-- The question loop of `addAnswers`: `return m` as soon as
`addLocalAnswers` reports done, or when the question is of type AAAA
(IPv6 is ignored). The Bool records whether the loop returned early. -/
def questionLoop (zones : List Zone) : Msg → List Question → Msg × Bool
  | m, [] => (m, false)
  | m, q :: rest =>
    match addLocalAnswers zones m q with
    | (m2, true) => (m2, true)
    | (m2, false) =>
      if q.qtype == typeAAAA then (m2, true)
      else questionLoop zones m2 rest

/-- `dnsHandler.addAnswers`, with the upstream exchange modelled by its
outcome `exch` (`some up` = `dnsClient.Exchange` returned reply `up`;
`none` = exchange error, including timeout). Returns the reply together
with a flag telling whether the exchange was performed. On exchange
error the local skeleton is returned with `RcodeNameError`; on success
the upstream reply is returned verbatim. -/
def addAnswers (zones : List Zone) (exch : Option Msg) (r : Msg) : Msg × Bool :=
  let m := initReply r
  match questionLoop zones m m.questions with
  | (m2, true) => (m2, false)
  | (m2, false) =>
    match exch with
    | some up => (up, true)
    | none => ({ m2 with rcode := rcodeNameError }, true)

/-! ### Truncation and the transport handlers -/

/-- Wire size of one question entry in the size model used for
truncation (owner name plus fixed type/class fields). -/
def questionSize (q : Question) : Nat := q.name.length + 5

/-- Wire size of one A answer record in the size model
(owner name, fixed header fields, address bytes). -/
def answerSize (a : ARecord) : Nat := a.name.length + 10 + a.ip.length

/-- DNS header size in bytes. -/
def headerSize : Nat := 12

/-- Total size of the answer section. -/
def answersSize (l : List ARecord) : Nat := (l.map answerSize).sum

/-- Encoded size of the message without its answer section. -/
def baseSize (m : Msg) : Nat := headerSize + (m.questions.map questionSize).sum

/-- Encoded size of the whole message in the size model. -/
def msgSize (m : Msg) : Nat := baseSize m + answersSize m.answers

/-- Longest prefix of the answer records fitting in `budget` bytes. -/
def fitAnswers (budget : Nat) : List ARecord → List ARecord
  | [] => []
  | a :: rest =>
    if answerSize a ≤ budget then a :: fitAnswers (budget - answerSize a) rest
    else []

/-- Modelled from the spec: `dns.Msg.Truncate` of the miekg/dns library
(not part of this repository) — "Truncate the outgoing reply to this
size, setting the truncation flag when records are dropped". A message
already within `size` is unchanged; otherwise the answer section is cut
to the longest prefix that fits and the flag records whether any answer
was dropped. -/
def msgTruncate (m : Msg) (size : Nat) : Msg :=
  if msgSize m ≤ size then m
  else
    let kept := fitAnswers (size - baseSize m) m.answers
    { m with answers := kept, truncated := decide (kept.length < m.answers.length) }

/-- `dnsHandler.handle`: build the reply via `addAnswers`, override the
permitted size with the EDNS0-advertised UDP payload size when the query
carries an EDNS0 option, and truncate. -/
def handle (zones : List Zone) (exch : Option Msg) (r : Msg) (responseMessageSize : Nat) : Msg :=
  let m := (addAnswers zones exch r).1
  let size :=
    match r.ednsUdpSize with
    | some u => u
    | none => responseMessageSize
  msgTruncate m size

/-- `dnsHandler.handleTCP`: `handle` with `dns.MaxMsgSize`. -/
def handleTCP (zones : List Zone) (exch : Option Msg) (r : Msg) : Msg :=
  handle zones exch r maxMsgSize

/-- `dnsHandler.handleUDP`: `handle` with `dns.MinMsgSize`. -/
def handleUDP (zones : List Zone) (exch : Option Msg) (r : Msg) : Msg :=
  handle zones exch r minMsgSize

/-! ### Zone store merge -/

/-- `Server.addZone`: find the first zone with the request's name; if
found, prepend the incoming records ahead of the existing ones
(`req.Records = append(req.Records, zone.Records...)`) and replace the
zone in place; otherwise append the new zone. -/
def addZone (zones : List Zone) (req : Zone) : List Zone :=
  match zones with
  | [] => [req]
  | z :: rest =>
    if z.name = req.name then { req with records := req.records ++ z.records } :: rest
    else z :: addZone rest req

/-! ### Hosts store: reload and the watch loop -/

/-- A parsed hosts-file snapshot (`*libhosty.HostsFile`), modelled as the
hostname-to-address mapping it answers lookups from. -/
abbrev HostsSnapshot := List (String × IPAddr)

/-- The `hosts` struct: the backing file path and the currently
installed snapshot. -/
structure HostsState where
  hostsFilePath : String
  hostsFile : HostsSnapshot

/-- Modelled from the spec: `libhosty`'s `LookupByHostname` on a parsed
snapshot (the library is not part of this repository) — first entry for
the hostname, `none` = NotFound. -/
def snapshotLookup (s : HostsSnapshot) (n : String) : Option IPAddr :=
  (s.find? (fun e => e.1 == n)).map Prod.snd

/-- `hosts.LookupByHostname`: answered from the currently installed
snapshot. -/
def lookupByHostname (st : HostsState) (n : String) : Option IPAddr :=
  snapshotLookup st.hostsFile n

/-- `hosts.updateHostsFile`, with `readHostsFile` (file I/O + libhosty
parse) modelled by its outcome `readResult`: on error the error is
returned and the state is untouched; on success the new snapshot is
installed. -/
def updateHostsFile (st : HostsState) (readResult : Except String HostsSnapshot) :
    HostsState × Option String :=
  match readResult with
  | Except.error e => (st, some e)
  | Except.ok s => ({ st with hostsFile := s }, none)

/-- One item delivered to the `select` of `hosts.startWatch`: a closure
or message on `w.Errors`, a closure on `w.Events`, or an fsnotify event
(with its write bit, and — for write events — the outcome of the
`readHostsFile` call the reload will perform). -/
inductive WatchItem where
  | errorsClosed
  | errorMsg (e : String)
  | eventsClosed
  | event (isWrite : Bool) (readResult : Except String HostsSnapshot)

/-- Why the watch loop returned. -/
inductive WatchExit where
  | errorsChannelClosed
  | eventsChannelClosed
  | reloadFailed (e : String)
deriving DecidableEq

/-- The `for/select` loop of `hosts.startWatch` after the watch was
successfully attached, run over a finite stream of delivered items:
channel closures return; watcher errors are logged and the loop
continues; a write event triggers `updateHostsFile`, and a reload error
is logged and the loop RETURNS; other events are ignored. `none` in the
second component means the stream was consumed with the loop still
running. -/
def startWatch (st : HostsState) : List WatchItem → HostsState × Option WatchExit
  | [] => (st, none)
  | WatchItem.errorsClosed :: _ => (st, some WatchExit.errorsChannelClosed)
  | WatchItem.errorMsg _ :: rest => startWatch st rest
  | WatchItem.eventsClosed :: _ => (st, some WatchExit.eventsChannelClosed)
  | WatchItem.event isWrite readResult :: rest =>
    if isWrite then
      match updateHostsFile st readResult with
      | (st2, some e) => (st2, some (WatchExit.reloadFailed e))
      | (st2, none) => startWatch st2 rest
    else startWatch st rest

/-! ### Concrete instances used by counterexamples and witnesses -/

/-- 127.0.0.1. -/
def ip1 : IPAddr := [127, 0, 0, 1]

/-- 10.0.0.2. -/
def ip2 : IPAddr := [10, 0, 0, 2]

/-- 9.9.9.9. -/
def ip9 : IPAddr := [9, 9, 9, 9]

/-- Record `a -> 127.0.0.1`, exact-name only. -/
def recA : Record := { name := "a", regexpMatch := none, ip := ip1 }

/-- Record `b -> 10.0.0.2`, exact-name only. -/
def recB : Record := { name := "b", regexpMatch := none, ip := ip2 }

/-- A zone `z.` with records for `a` and `b` and no default address. -/
def zoneZ : Zone := { name := "z.", records := [recA, recB], defaultIP := [] }

/-- A request message with the given questions and no EDNS0 option. -/
def mkQuery (qs : List Question) : Msg :=
  { questions := qs
    answers := []
    rcode := rcodeSuccess
    truncated := false
    recursionAvailable := false
    ednsUdpSize := none }

/-- A stand-in upstream reply, distinguishable from any local reply. -/
def upstreamEx : Msg :=
  { questions := [⟨"up.", typeA⟩]
    answers := [mkARecord "up." ip9]
    rcode := rcodeSuccess
    truncated := false
    recursionAvailable := true
    ednsUdpSize := none }

/-- A hosts state with one entry, for the watch-loop instances. -/
def hostsEx : HostsState := { hostsFilePath := "/etc/hosts", hostsFile := [("entry1", ip1)] }

example : addAnswers [zoneZ] (some upstreamEx) (mkQuery [⟨"a.z.", typeA⟩]) =
    ({ initReply (mkQuery [⟨"a.z.", typeA⟩]) with answers := [mkARecord "a.z." ip1] }, false) := by
  decide

example : addAnswers [zoneZ] (some upstreamEx) (mkQuery [⟨"a.z.", typeTXT⟩]) =
    (upstreamEx, true) := by
  decide

example : addAnswers [zoneZ] (some upstreamEx) (mkQuery [⟨"a.z.", typeAAAA⟩]) =
    (initReply (mkQuery [⟨"a.z.", typeAAAA⟩]), false) := by
  decide

example :
    (addAnswers [zoneZ] (some upstreamEx) (mkQuery [⟨"a.z.", typeA⟩, ⟨"b.z.", typeA⟩])).1.answers =
      [mkARecord "a.z." ip1] := by
  decide

example : addAnswers [zoneZ] (some upstreamEx) (mkQuery [⟨"c.other.", typeA⟩, ⟨"b.z.", typeA⟩]) =
    (upstreamEx, true) := by
  decide

example : addAnswers [zoneZ] none (mkQuery [⟨"c.other.", typeA⟩]) =
    ({ initReply (mkQuery [⟨"c.other.", typeA⟩]) with rcode := rcodeNameError }, true) := by
  decide

example : (startWatch hostsEx [WatchItem.event true (Except.error "bad")]).2 =
    some (WatchExit.reloadFailed "bad") := by
  decide

example : addZone [zoneZ] { name := "z.", records := [recB], defaultIP := [] } =
    [{ name := "z.", records := [recB, recA, recB], defaultIP := [] }] := by
  simp [addZone, zoneZ]

/-! ### Helper lemmas -/

theorem zoneAnswer_not_A (m : Msg) (q : Question) (z : Zone) (h : q.qtype ≠ typeA) :
    zoneAnswer m q z = (m, false) := by
  unfold zoneAnswer
  rw [if_pos h]

theorem addLocalAnswers_not_A (zs : List Zone) (m : Msg) (q : Question) (h : q.qtype ≠ typeA) :
    addLocalAnswers zs m q = (m, false) := by
  induction zs with
  | nil => rfl
  | cons z rest ih =>
    simp only [addLocalAnswers]
    cases hs : goHasSuffix q.name ("." ++ z.name) with
    | true => simp [zoneAnswer_not_A m q z h]
    | false => simpa using ih

theorem zoneAnswer_snd_false (m : Msg) (q : Question) (z : Zone)
    (h : (zoneAnswer m q z).2 = false) : zoneAnswer m q z = (m, false) := by
  by_cases hA : q.qtype ≠ typeA
  · exact zoneAnswer_not_A m q z hA
  · exfalso
    unfold zoneAnswer at h
    rw [if_neg hA] at h
    rcases hscan : scanRecords m q.name (goTrimSuffix q.name ("." ++ z.name)) z.records with _ | m2
    · rw [hscan] at h
      by_cases hd : z.defaultIP ≠ ([] : IPAddr)
      · rw [if_pos hd] at h
        simp at h
      · rw [if_neg hd] at h
        simp at h
    · rw [hscan] at h
      simp at h

theorem addLocalAnswers_snd_false (zs : List Zone) (m : Msg) (q : Question)
    (h : (addLocalAnswers zs m q).2 = false) : addLocalAnswers zs m q = (m, false) := by
  induction zs with
  | nil => rfl
  | cons z rest ih =>
    simp only [addLocalAnswers] at h ⊢
    cases hs : goHasSuffix q.name ("." ++ z.name) with
    | true =>
      rw [hs] at h
      simp only [if_true] at h ⊢
      exact zoneAnswer_snd_false m q z h
    | false =>
      rw [hs] at h
      simp only [Bool.false_eq_true, if_false] at h ⊢
      exact ih h

theorem addLocalAnswers_first (pre : List Zone) (z : Zone) (post : List Zone) (m : Msg)
    (q : Question)
    (hpre : ∀ z2 ∈ pre, goHasSuffix q.name ("." ++ z2.name) = false)
    (hz : goHasSuffix q.name ("." ++ z.name) = true) :
    addLocalAnswers (pre ++ z :: post) m q = zoneAnswer m q z := by
  induction pre with
  | nil => simp [addLocalAnswers, hz]
  | cons p rest ih =>
    have hp : goHasSuffix q.name ("." ++ p.name) = false := hpre p (by simp)
    simp only [List.cons_append, addLocalAnswers, hp, Bool.false_eq_true, if_false]
    exact ih (fun z2 hz2 => hpre z2 (by simp [hz2]))

theorem scanRecords_eq_find (m : Msg) (qn wz : String) (recs : List Record) :
    scanRecords m qn wz recs =
      (recs.find? (recordMatches wz)).map (fun rec => appendAnswer m qn rec.ip) := by
  induction recs with
  | nil => rfl
  | cons rec rest ih =>
    cases hm : recordMatches wz rec with
    | true => simp [scanRecords, hm, List.find?_cons_of_pos]
    | false => simp [scanRecords, hm, List.find?_cons_of_neg, ih]

theorem questionLoop_snd_false (zs : List Zone) (qs : List Question) (m : Msg)
    (h : (questionLoop zs m qs).2 = false) : questionLoop zs m qs = (m, false) := by
  induction qs generalizing m with
  | nil => rfl
  | cons q rest ih =>
    rcases hl : addLocalAnswers zs m q with ⟨m2, b⟩
    cases b with
    | true =>
      exfalso
      simp only [questionLoop, hl] at h
      exact Bool.noConfusion h
    | false =>
      have hm2 : m2 = m := by
        have h2 := addLocalAnswers_snd_false zs m q (by rw [hl])
        rw [hl] at h2
        injection h2
      subst hm2
      simp only [questionLoop, hl] at h ⊢
      cases ha : q.qtype == typeAAAA with
      | true =>
        rw [ha] at h
        rw [if_pos rfl] at h
        exact Bool.noConfusion h
      | false =>
        rw [ha] at h
        rw [if_neg (by simp)] at h
        rw [if_neg (by simp)]
        exact ih m2 h

theorem questionLoop_single_done (zs : List Zone) (m : Msg) (q : Question) (m2 : Msg)
    (hl : addLocalAnswers zs m q = (m2, true)) :
    questionLoop zs m [q] = (m2, true) := by
  simp only [questionLoop, hl]

theorem addAnswers_of_loop_true (zs : List Zone) (exch : Option Msg) (r : Msg) (m2 : Msg)
    (h : questionLoop zs (initReply r) (initReply r).questions = (m2, true)) :
    addAnswers zs exch r = (m2, false) := by
  simp only [addAnswers, h]

theorem addAnswers_of_loop_false (zs : List Zone) (exch : Option Msg) (r : Msg)
    (h : (questionLoop zs (initReply r) (initReply r).questions).2 = false) :
    addAnswers zs exch r =
      match exch with
      | some up => (up, true)
      | none => ({ initReply r with rcode := rcodeNameError }, true) := by
  have hl := questionLoop_snd_false zs (initReply r).questions (initReply r) h
  simp only [addAnswers, hl]

theorem initReply_questions (r : Msg) (q : Question) (hq : r.questions = [q]) :
    (initReply r).questions = [q] := by
  simp [initReply, setReply, hq]

/-- A second zone with the same suffix, used to instantiate the
first-zone-wins statements. -/
def zoneZ2 : Zone := { name := "z.", records := [recB], defaultIP := ip2 }

/-! ### The claims -/

/-- C10: for a query name ending in the dot-qualified suffix of more
than one stored zone, the outcome of `addLocalAnswers` is determined
solely by the earliest matching zone: it equals the answer computed
from that zone alone, and later zones — matching or not — are never
consulted. -/
theorem claim10_first_zone_wins (pre : List Zone) (z : Zone) (post : List Zone) (m : Msg)
    (q : Question)
    (hpre : ∀ z2 ∈ pre, goHasSuffix q.name ("." ++ z2.name) = false)
    (hz : goHasSuffix q.name ("." ++ z.name) = true) :
    addLocalAnswers (pre ++ z :: post) m q = zoneAnswer m q z
    ∧ ∀ post2 : List Zone,
        addLocalAnswers (pre ++ z :: post) m q = addLocalAnswers (pre ++ z :: post2) m q := by
  constructor
  · exact addLocalAnswers_first pre z post m q hpre hz
  · intro post2
    rw [addLocalAnswers_first pre z post m q hpre hz,
      addLocalAnswers_first pre z post2 m q hpre hz]

/-- Witness for C10 at a concrete store in which a second zone with the
same suffix (and different records and default) follows the first. -/
theorem claim10_witness :
    addLocalAnswers ([] ++ zoneZ :: [zoneZ2]) (initReply (mkQuery [⟨"a.z.", typeA⟩]))
        ⟨"a.z.", typeA⟩ =
      zoneAnswer (initReply (mkQuery [⟨"a.z.", typeA⟩])) ⟨"a.z.", typeA⟩ zoneZ := by
  exact (claim10_first_zone_wins [] zoneZ [zoneZ2] (initReply (mkQuery [⟨"a.z.", typeA⟩]))
    ⟨"a.z.", typeA⟩ (by simp) (by decide)).1

/-- C1: an A query owned by a zone (earliest suffix match) is answered
from that zone's records scanned in order — the first record whose
non-empty name equals the stripped query name or whose pattern matches
it yields exactly one A answer with the record's address and TTL 0
(`mkARecord` fixes TTL 0) and response code success; with no matching
record a non-empty default address answers instead; with neither, the
reply's rcode is name-error. In all three cases the exchange flag is
false: the query is not forwarded. A record with empty name and no
pattern matches nothing. -/
theorem claim1_zone_A_query_resolution (zs : List Zone) (exch : Option Msg) (r : Msg)
    (q : Question) (pre : List Zone) (z : Zone) (post : List Zone)
    (hq : r.questions = [q]) (ht : q.qtype = typeA)
    (hzs : zs = pre ++ z :: post)
    (hpre : ∀ z2 ∈ pre, goHasSuffix q.name ("." ++ z2.name) = false)
    (hz : goHasSuffix q.name ("." ++ z.name) = true) :
    (∀ rec : Record,
        z.records.find? (recordMatches (goTrimSuffix q.name ("." ++ z.name))) = some rec →
        addAnswers zs exch r =
          ({ initReply r with answers := [mkARecord q.name rec.ip] }, false))
    ∧ (z.records.find? (recordMatches (goTrimSuffix q.name ("." ++ z.name))) = none →
        z.defaultIP ≠ ([] : IPAddr) →
        addAnswers zs exch r =
          ({ initReply r with answers := [mkARecord q.name z.defaultIP] }, false))
    ∧ (z.records.find? (recordMatches (goTrimSuffix q.name ("." ++ z.name))) = none →
        z.defaultIP = ([] : IPAddr) →
        addAnswers zs exch r = ({ initReply r with rcode := rcodeNameError }, false))
    ∧ (∀ (wz : String) (rec : Record), rec.name = "" → rec.regexpMatch = none →
        recordMatches wz rec = false) := by
  subst hzs
  have hqs := initReply_questions r q hq
  have hfirst := addLocalAnswers_first pre z post (initReply r) q hpre hz
  have hanswers : (initReply r).answers = [] := rfl
  refine ⟨?_, ?_, ?_, ?_⟩
  · intro rec hfind
    have hza : zoneAnswer (initReply r) q z = (appendAnswer (initReply r) q.name rec.ip, true) := by
      unfold zoneAnswer
      rw [if_neg (by simp [ht]), scanRecords_eq_find, hfind]
      rfl
    have happ : appendAnswer (initReply r) q.name rec.ip =
        { initReply r with answers := [mkARecord q.name rec.ip] } := by
      simp [appendAnswer, hanswers]
    rw [happ] at hza
    refine addAnswers_of_loop_true _ exch r _ ?_
    rw [hqs]
    exact questionLoop_single_done _ (initReply r) q _ (hfirst.trans hza)
  · intro hfind hd
    have hza : zoneAnswer (initReply r) q z =
        (appendAnswer (initReply r) q.name z.defaultIP, true) := by
      unfold zoneAnswer
      rw [if_neg (by simp [ht]), scanRecords_eq_find, hfind]
      show (if z.defaultIP ≠ ([] : IPAddr) then (appendAnswer (initReply r) q.name z.defaultIP, true)
          else ({ initReply r with rcode := rcodeNameError }, true)) = _
      rw [if_pos hd]
    have happ : appendAnswer (initReply r) q.name z.defaultIP =
        { initReply r with answers := [mkARecord q.name z.defaultIP] } := by
      simp [appendAnswer, hanswers]
    rw [happ] at hza
    refine addAnswers_of_loop_true _ exch r _ ?_
    rw [hqs]
    exact questionLoop_single_done _ (initReply r) q _ (hfirst.trans hza)
  · intro hfind hd
    have hza : zoneAnswer (initReply r) q z =
        ({ initReply r with rcode := rcodeNameError }, true) := by
      unfold zoneAnswer
      rw [if_neg (by simp [ht]), scanRecords_eq_find, hfind]
      show (if z.defaultIP ≠ ([] : IPAddr) then (appendAnswer (initReply r) q.name z.defaultIP, true)
          else ({ initReply r with rcode := rcodeNameError }, true)) = _
      rw [if_neg (by simp [hd])]
    refine addAnswers_of_loop_true _ exch r _ ?_
    rw [hqs]
    exact questionLoop_single_done _ (initReply r) q _ (hfirst.trans hza)
  · intro wz rec h1 h2
    simp [recordMatches, h1, h2]

/-- Witness for C1: the record case at a concrete zone and query. -/
theorem claim1_witness :
    addAnswers [zoneZ] (some upstreamEx) (mkQuery [⟨"a.z.", typeA⟩]) =
      ({ initReply (mkQuery [⟨"a.z.", typeA⟩]) with answers := [mkARecord "a.z." recA.ip] },
        false) := by
  exact (claim1_zone_A_query_resolution [zoneZ] (some upstreamEx) (mkQuery [⟨"a.z.", typeA⟩])
    ⟨"a.z.", typeA⟩ [] zoneZ [] rfl rfl rfl (by simp) (by decide)).1 recA rfl

theorem addAnswers_single_nonA (zs : List Zone) (exch : Option Msg) (r : Msg) (q : Question)
    (hq : r.questions = [q]) (hne : q.qtype ≠ typeA) :
    (q.qtype = typeAAAA → addAnswers zs exch r = (initReply r, false))
    ∧ (q.qtype ≠ typeAAAA →
        addAnswers zs exch r =
          match exch with
          | some up => (up, true)
          | none => ({ initReply r with rcode := rcodeNameError }, true)) := by
  have hl : addLocalAnswers zs (initReply r) q = (initReply r, false) :=
    addLocalAnswers_not_A zs (initReply r) q hne
  have hqs := initReply_questions r q hq
  constructor
  · intro ht
    refine addAnswers_of_loop_true zs exch r _ ?_
    rw [hqs]
    simp only [questionLoop, hl]
    rw [if_pos (by simp [ht])]
  · intro ht
    refine addAnswers_of_loop_false zs exch r ?_
    rw [hqs]
    simp only [questionLoop, hl]
    rw [if_neg (by simp [ht])]

/-- C4: a single-question AAAA query — whether its name falls under a
stored zone or not — gets back the bare reply skeleton: no answer
records, and the exchange flag is false (never forwarded). -/
theorem claim4_aaaa_unanswered (zs : List Zone) (exch : Option Msg) (r : Msg) (q : Question)
    (hq : r.questions = [q]) (ht : q.qtype = typeAAAA) :
    addAnswers zs exch r = (initReply r, false) ∧ (initReply r).answers = [] := by
  have hne : q.qtype ≠ typeA := by rw [ht]; decide
  exact ⟨(addAnswers_single_nonA zs exch r q hq hne).1 ht, rfl⟩

/-- Witness for C4: an AAAA query under the zone `z.`. -/
theorem claim4_witness :
    addAnswers [zoneZ] (some upstreamEx) (mkQuery [⟨"a.z.", typeAAAA⟩]) =
      (initReply (mkQuery [⟨"a.z.", typeAAAA⟩]), false) := by
  exact (claim4_aaaa_unanswered [zoneZ] (some upstreamEx) (mkQuery [⟨"a.z.", typeAAAA⟩])
    ⟨"a.z.", typeAAAA⟩ rfl rfl).1

/-- Counterexample to C2 as stated: a TXT query under the zone `z.` IS
forwarded upstream — the exchange runs and its reply (which is not
empty) is returned, contradicting "the caller returns immediately with
an empty reply ... regardless of the non-A type (AAAA, TXT, MX, ...)". -/
theorem claim2_counterexample :
    goHasSuffix "a.z." ("." ++ zoneZ.name) = true
    ∧ addAnswers [zoneZ] (some upstreamEx) (mkQuery [⟨"a.z.", typeTXT⟩]) = (upstreamEx, true)
    ∧ upstreamEx.answers ≠ [] := by
  exact ⟨by decide, by decide, by decide⟩

/-- C2 amended: for a single-question query owned by a stored zone with
`questionType ≠ A`, the zone declines to answer; if the type is AAAA the
caller returns immediately with an empty reply and no forwarding, but
for every other non-A type the query IS forwarded upstream (on exchange
success the upstream reply is returned, on failure a name-error
reply). -/
theorem claim2_nonA_zone_query (zs : List Zone) (exch : Option Msg) (r : Msg) (q : Question)
    (z : Zone) (hq : r.questions = [q]) (_hzin : z ∈ zs)
    (_hsuf : goHasSuffix q.name ("." ++ z.name) = true) (hne : q.qtype ≠ typeA) :
    (q.qtype = typeAAAA → addAnswers zs exch r = (initReply r, false))
    ∧ (q.qtype ≠ typeAAAA →
        addAnswers zs exch r =
          match exch with
          | some up => (up, true)
          | none => ({ initReply r with rcode := rcodeNameError }, true)) :=
  addAnswers_single_nonA zs exch r q hq hne

/-- Witness for C2 (amended): a TXT query under `z.` with a failing
exchange yields the name-error reply, exchange flag set. -/
theorem claim2_witness :
    addAnswers [zoneZ] none (mkQuery [⟨"a.z.", typeTXT⟩]) =
      ({ initReply (mkQuery [⟨"a.z.", typeTXT⟩]) with rcode := rcodeNameError }, true) := by
  exact (claim2_nonA_zone_query [zoneZ] none (mkQuery [⟨"a.z.", typeTXT⟩]) ⟨"a.z.", typeTXT⟩
    zoneZ rfl (by simp) (by decide) (by decide)).2 (by decide)

/-- Counterexample to C3 as stated: with questions `a.z.` and `b.z.`
(both locally answerable, witnessed by the first conjunct), the reply
carries only the answer for `a.z.`; and when the first question is not
locally answerable (`c.other.`), the query is forwarded even though the
second question is answerable — answers are NOT accumulated per
question. -/
theorem claim3_counterexample :
    (addLocalAnswers [zoneZ] (initReply (mkQuery [⟨"a.z.", typeA⟩, ⟨"b.z.", typeA⟩]))
        ⟨"b.z.", typeA⟩).2 = true
    ∧ (addAnswers [zoneZ] (some upstreamEx)
        (mkQuery [⟨"a.z.", typeA⟩, ⟨"b.z.", typeA⟩])).1.answers = [mkARecord "a.z." ip1]
    ∧ addAnswers [zoneZ] (some upstreamEx) (mkQuery [⟨"c.other.", typeA⟩, ⟨"b.z.", typeA⟩]) =
        (upstreamEx, true) := by
  exact ⟨by decide, by decide, by decide⟩

/-- C3 amended: only the FIRST question of a multi-question query is
ever considered — the reply skeleton built by `SetReply` carries just
the first question, so the reply is that of the single-question query:
its local answer alone when it is locally answered, the empty skeleton
when it is AAAA, and otherwise the whole original query is forwarded
upstream; later questions never contribute local answers. -/
theorem claim3_first_question_only (zs : List Zone) (exch : Option Msg) (r : Msg)
    (q : Question) (rest : List Question) (hq : r.questions = q :: rest) :
    (initReply r).questions = [q]
    ∧ (∀ m2 : Msg, addLocalAnswers zs (initReply r) q = (m2, true) →
        addAnswers zs exch r = (m2, false))
    ∧ ((addLocalAnswers zs (initReply r) q).2 = false → q.qtype = typeAAAA →
        addAnswers zs exch r = (initReply r, false))
    ∧ ((addLocalAnswers zs (initReply r) q).2 = false → q.qtype ≠ typeAAAA →
        addAnswers zs exch r =
          match exch with
          | some up => (up, true)
          | none => ({ initReply r with rcode := rcodeNameError }, true)) := by
  have hqs : (initReply r).questions = [q] := by simp [initReply, setReply, hq]
  refine ⟨hqs, ?_, ?_, ?_⟩
  · intro m2 hl
    refine addAnswers_of_loop_true zs exch r _ ?_
    rw [hqs]
    exact questionLoop_single_done zs (initReply r) q m2 hl
  · intro hl ht
    have hl2 := addLocalAnswers_snd_false zs (initReply r) q hl
    refine addAnswers_of_loop_true zs exch r _ ?_
    rw [hqs]
    simp only [questionLoop, hl2]
    rw [if_pos (by simp [ht])]
  · intro hl ht
    have hl2 := addLocalAnswers_snd_false zs (initReply r) q hl
    refine addAnswers_of_loop_false zs exch r ?_
    rw [hqs]
    simp only [questionLoop, hl2]
    rw [if_neg (by simp [ht])]

/-- Witness for C3 (amended): the two-question query again — the reply
is exactly the local answer of the first question. -/
theorem claim3_witness :
    addAnswers [zoneZ] (some upstreamEx) (mkQuery [⟨"a.z.", typeA⟩, ⟨"b.z.", typeA⟩]) =
      ({ initReply (mkQuery [⟨"a.z.", typeA⟩, ⟨"b.z.", typeA⟩]) with
          answers := [mkARecord "a.z." ip1] }, false) := by
  exact (claim3_first_question_only [zoneZ] (some upstreamEx)
    (mkQuery [⟨"a.z.", typeA⟩, ⟨"b.z.", typeA⟩]) ⟨"a.z.", typeA⟩ [⟨"b.z.", typeA⟩]
    rfl).2.1 _ (by decide)

/-- C6: whenever the query is forwarded (the question loop finished
without a local reply), a failed exchange yields the locally built
skeleton with response code name-error, and a successful exchange yields
the upstream reply verbatim — in both cases the exchange ran exactly
once and the caller receives a reply, never an error. -/
theorem claim6_exchange_outcome (zs : List Zone) (r : Msg)
    (h : (questionLoop zs (initReply r) (initReply r).questions).2 = false) :
    addAnswers zs none r = ({ initReply r with rcode := rcodeNameError }, true)
    ∧ ∀ up : Msg, addAnswers zs (some up) r = (up, true) := by
  constructor
  · exact addAnswers_of_loop_false zs none r h
  · intro up
    exact addAnswers_of_loop_false zs (some up) r h

/-- Witness for C6: an A query for a name no zone owns. -/
theorem claim6_witness :
    addAnswers [zoneZ] none (mkQuery [⟨"c.other.", typeA⟩]) =
      ({ initReply (mkQuery [⟨"c.other.", typeA⟩]) with rcode := rcodeNameError }, true) := by
  exact (claim6_exchange_outcome [zoneZ] (mkQuery [⟨"c.other.", typeA⟩]) (by decide)).1

theorem answersSize_fitAnswers_le (budget : Nat) (l : List ARecord) :
    answersSize (fitAnswers budget l) ≤ budget := by
  induction l generalizing budget with
  | nil => simp [fitAnswers, answersSize]
  | cons a rest ih =>
    simp only [fitAnswers]
    by_cases h : answerSize a ≤ budget
    · rw [if_pos h]
      have h2 := ih (budget - answerSize a)
      simp only [answersSize, List.map_cons, List.sum_cons] at h2 ⊢
      omega
    · rw [if_neg h]
      simp [answersSize]

/-- C5: the permitted reply size is the EDNS0-advertised UDP payload
size when the query carries an EDNS0 option (on both transports), and
otherwise `dns.MaxMsgSize` for TCP-served queries and `dns.MinMsgSize`
for UDP-served queries; truncation to a limit at least as large as the
fixed part of the message leaves the encoded reply within the limit and
sets the truncation flag whenever answer records were dropped. -/
theorem claim5_truncation (zs : List Zone) (exch : Option Msg) (r : Msg) :
    (∀ u : Nat, r.ednsUdpSize = some u →
        handleTCP zs exch r = msgTruncate (addAnswers zs exch r).1 u
        ∧ handleUDP zs exch r = msgTruncate (addAnswers zs exch r).1 u)
    ∧ (r.ednsUdpSize = none →
        handleTCP zs exch r = msgTruncate (addAnswers zs exch r).1 maxMsgSize
        ∧ handleUDP zs exch r = msgTruncate (addAnswers zs exch r).1 minMsgSize)
    ∧ (∀ (m : Msg) (size : Nat), baseSize m ≤ size →
        msgSize (msgTruncate m size) ≤ size
        ∧ ((msgTruncate m size).answers.length < m.answers.length →
            (msgTruncate m size).truncated = true)) := by
  refine ⟨?_, ?_, ?_⟩
  · intro u hu
    exact ⟨by simp [handleTCP, handle, hu], by simp [handleUDP, handle, hu]⟩
  · intro hu
    exact ⟨by simp [handleTCP, handle, hu], by simp [handleUDP, handle, hu]⟩
  · intro m size hbase
    unfold msgTruncate
    by_cases hfit : msgSize m ≤ size
    · rw [if_pos hfit]
      exact ⟨hfit, fun habs => absurd habs (Nat.lt_irrefl _)⟩
    · rw [if_neg hfit]
      constructor
      · show baseSize m + answersSize (fitAnswers (size - baseSize m) m.answers) ≤ size
        have hk := answersSize_fitAnswers_le (size - baseSize m) m.answers
        omega
      · show (fitAnswers (size - baseSize m) m.answers).length < m.answers.length →
            decide ((fitAnswers (size - baseSize m) m.answers).length < m.answers.length) = true
        intro habs
        exact decide_eq_true habs

/-- Witness for C5: UDP with no EDNS0 option uses `dns.MinMsgSize`, and
truncating a concrete oversized reply to 20 bytes keeps it within 20
bytes. -/
theorem claim5_witness :
    handleUDP [zoneZ] (some upstreamEx) (mkQuery [⟨"c.other.", typeA⟩]) =
      msgTruncate (addAnswers [zoneZ] (some upstreamEx) (mkQuery [⟨"c.other.", typeA⟩])).1
        minMsgSize
    ∧ msgSize (msgTruncate upstreamEx 20) ≤ 20 := by
  have h := claim5_truncation [zoneZ] (some upstreamEx) (mkQuery [⟨"c.other.", typeA⟩])
  exact ⟨(h.2.1 rfl).2, (h.2.2 upstreamEx 20 (by decide)).1⟩

theorem addZone_names (zs : List Zone) (req : Zone) :
    (addZone zs req).map Zone.name =
      if req.name ∈ zs.map Zone.name then zs.map Zone.name
      else zs.map Zone.name ++ [req.name] := by
  induction zs with
  | nil => simp [addZone]
  | cons z rest ih =>
    simp only [addZone]
    by_cases h : z.name = req.name
    · rw [if_pos h, if_pos (by simp [← h])]
      simp [h]
    · rw [if_neg h]
      simp only [List.map_cons, ih]
      have hne2 : ¬req.name = z.name := fun hh => h hh.symm
      by_cases hm : req.name ∈ rest.map Zone.name
      · rw [if_pos hm, if_pos (by simp [hm])]
      · rw [if_neg hm, if_neg (by simp [hm, hne2]), List.cons_append]

theorem addZone_names_nodup (zs : List Zone) (req : Zone)
    (h : (zs.map Zone.name).Nodup) : ((addZone zs req).map Zone.name).Nodup := by
  rw [addZone_names]
  by_cases hm : req.name ∈ zs.map Zone.name
  · rw [if_pos hm]
    exact h
  · rw [if_neg hm]
    simp only [List.nodup_append, List.nodup_cons, List.not_mem_nil, not_false_iff,
      List.nodup_nil, and_true, true_and]
    exact ⟨h, fun a ha hcontra => hm (by simpa [List.mem_singleton.mp hcontra] using ha)⟩

theorem addZone_replace (pre : List Zone) (z : Zone) (post : List Zone) (req : Zone)
    (hpre : ∀ p ∈ pre, p.name ≠ req.name) (hz : z.name = req.name) :
    addZone (pre ++ z :: post) req =
      pre ++ { req with records := req.records ++ z.records } :: post := by
  induction pre with
  | nil =>
    simp only [List.nil_append, addZone]
    rw [if_pos hz]
  | cons p rest ih =>
    have hp : p.name ≠ req.name := hpre p (by simp)
    simp only [List.cons_append, addZone]
    rw [if_neg hp]
    exact congrArg (List.cons p) (ih (fun p2 h2 => hpre p2 (by simp [h2])))

theorem addZone_append (zs : List Zone) (req : Zone)
    (h : ∀ z ∈ zs, z.name ≠ req.name) : addZone zs req = zs ++ [req] := by
  induction zs with
  | nil => rfl
  | cons z rest ih =>
    simp only [addZone]
    rw [if_neg (h z (by simp)), ih (fun z2 h2 => h z2 (by simp [h2]))]
    rfl

theorem foldl_addZone_nodup (reqs : List Zone) (zs : List Zone)
    (h : (zs.map Zone.name).Nodup) :
    ((List.foldl addZone zs reqs).map Zone.name).Nodup := by
  induction reqs generalizing zs with
  | nil => simpa using h
  | cons rq rest ih =>
    rw [List.foldl_cons]
    exact ih (addZone zs rq) (addZone_names_nodup zs rq h)

/-- C7: on a store with unique zone names, `addZone` merges a request
naming an existing zone by prepending the incoming records ahead of the
existing ones and replacing the zone at its position; a request naming
no existing zone is appended; one merge preserves uniqueness of zone
names, and so does every sequence of merges — the published zone list
never holds two zones with the same name. -/
theorem claim7_addZone_merge (zs : List Zone) (req : Zone)
    (h : (zs.map Zone.name).Nodup) :
    (∀ pre z post, zs = pre ++ z :: post → z.name = req.name →
        addZone zs req = pre ++ { req with records := req.records ++ z.records } :: post)
    ∧ ((∀ z ∈ zs, z.name ≠ req.name) → addZone zs req = zs ++ [req])
    ∧ ((addZone zs req).map Zone.name).Nodup
    ∧ ∀ reqs : List Zone, ((List.foldl addZone zs reqs).map Zone.name).Nodup := by
  refine ⟨?_, addZone_append zs req, addZone_names_nodup zs req h,
    fun reqs => foldl_addZone_nodup reqs zs h⟩
  intro pre z post hzs hz
  subst hzs
  have hpre : ∀ p ∈ pre, p.name ≠ req.name := by
    intro p hp hcontra
    rw [List.map_append, List.map_cons] at h
    rcases List.nodup_append.mp h with ⟨h1, h2, hdisj⟩
    refine hdisj (List.mem_map_of_mem Zone.name hp) ?_
    rw [hcontra, ← hz]
    exact List.mem_cons_self _ _
  exact addZone_replace pre z post req hpre hz

/-- Witness for C7: merging a second zone named `z.` into a store
already holding `z.` prepends the new records and keeps a single
entry. -/
theorem claim7_witness :
    addZone [zoneZ] zoneZ2 =
      [{ name := "z.", records := zoneZ2.records ++ zoneZ.records, defaultIP := ip2 }] := by
  exact (claim7_addZone_merge [zoneZ] zoneZ2 (by simp)).1 [] zoneZ [] rfl rfl

/-- C8: when reparsing the hosts file fails during a reload, the stored
snapshot is not replaced — the error is returned, the state is
unchanged, and every subsequent lookup is answered from the previous
snapshot. -/
theorem claim8_reload_error_keeps_state (st : HostsState) (e : String) :
    updateHostsFile st (Except.error e) = (st, some e)
    ∧ ∀ n : String,
        lookupByHostname (updateHostsFile st (Except.error e)).1 n = lookupByHostname st n := by
  exact ⟨rfl, fun n => rfl⟩

/-- Counterexample to C9 as stated: a single write event whose reload
fails terminates the watch loop with exit reason `reloadFailed`,
although no notification channel was closed — a reload error DOES
terminate the loop. -/
theorem claim9_counterexample :
    (startWatch hostsEx [WatchItem.event true (Except.error "bad")]).2 =
      some (WatchExit.reloadFailed "bad")
    ∧ some (WatchExit.reloadFailed "bad") ≠ some WatchExit.errorsChannelClosed
    ∧ some (WatchExit.reloadFailed "bad") ≠ some WatchExit.eventsChannelClosed := by
  exact ⟨by decide, by decide, by decide⟩

/-- C9 amended: once attached, the watch loop terminates only when a
notification channel (events or errors) is closed OR when a reload
triggered by a write event fails — the reload error is logged and the
loop returns. -/
theorem claim9_watch_exit_reasons (st : HostsState) (items : List WatchItem) (ex : WatchExit)
    (h : (startWatch st items).2 = some ex) :
    ex = WatchExit.errorsChannelClosed ∨ ex = WatchExit.eventsChannelClosed
    ∨ ∃ e, ex = WatchExit.reloadFailed e := by
  induction items generalizing st with
  | nil => exact absurd h (by simp [startWatch])
  | cons it rest ih =>
    cases it with
    | errorsClosed =>
      have h2 : some WatchExit.errorsChannelClosed = some ex := h
      exact Or.inl (Option.some.inj h2).symm
    | errorMsg e => exact ih st h
    | eventsClosed =>
      have h2 : some WatchExit.eventsChannelClosed = some ex := h
      exact Or.inr (Or.inl (Option.some.inj h2).symm)
    | event w res =>
      cases w with
      | false => exact ih st h
      | true =>
        cases res with
        | error e =>
          have h2 : some (WatchExit.reloadFailed e) = some ex := h
          exact Or.inr (Or.inr ⟨e, (Option.some.inj h2).symm⟩)
        | ok s => exact ih { st with hostsFile := s } h

/-- Witness for C9 (amended): at the failing-reload stream, the exit
reason is of the reload-failure kind. -/
theorem claim9_witness :
    WatchExit.reloadFailed "bad" = WatchExit.errorsChannelClosed
    ∨ WatchExit.reloadFailed "bad" = WatchExit.eventsChannelClosed
    ∨ ∃ e, WatchExit.reloadFailed "bad" = WatchExit.reloadFailed e := by
  exact claim9_watch_exit_reasons hostsEx [WatchItem.event true (Except.error "bad")]
    (WatchExit.reloadFailed "bad") (by decide)

end GvDns
